import Mathlib

/-!
Verification of the chunk-loading engine in `src/load_data/src/main.rs`.

Modelling conventions: Rust `u64` offsets are `Nat` (all realistic values
fit); raw bytes are `Nat`s below 256; `i8` elements are `Int`; a Rust
`String` is represented by its UTF-8 byte list; fallible code
(`io::Result`) returns an `Outcome`, whose `panicked` constructor models
a process-aborting Rust panic (`unwrap`, `panic!`, or the debug-build
`u64` subtraction underflow in `load_chunk`).
-/

namespace LoadData

/-- `enum DataType { Int8, Utf8Str }` from the source. -/
inductive DataType where
  | int8
  | utf8Str
deriving DecidableEq

/-- `struct ChunkInfo { filepath: String, start_idx: u64, end_idx: u64 }`. -/
structure ChunkInfo where
  filepath : String
  start_idx : Nat
  end_idx : Nat
deriving DecidableEq

/-- `enum LoadedData { Int8(Vec<i8>), Utf8Str(Vec<String>) }`; each decoded
string is represented by its UTF-8 byte list. -/
inductive LoadedData where
  | int8 (v : List Int)
  | utf8Str (v : List (List Nat))
deriving DecidableEq

/-- The `io::Error` values this program constructs: `read_exact` fails with
the constant `ErrorKind::UnexpectedEof` error (message "failed to fill
whole buffer"; it carries no file path and no offset range), and the
`Utf8Str` decode path wraps the `FromUtf8Error` (which owns the offending
bytes, but again no path or range) into an `ErrorKind::InvalidData` error. -/
inductive IOError where
  | unexpectedEof
  | invalidData (bytes : List Nat)
deriving DecidableEq

/-- Result of running a fallible piece of the program: an `Ok` value, a
returned `Err(io::Error)`, or a process-aborting panic. -/
inductive Outcome (α : Type) where
  | ok (val : α)
  | err (e : IOError)
  | panicked
deriving DecidableEq

/-- The filesystem: the byte contents of each openable path (`none` means
`File::open` fails for that path). -/
abbrev FS := String → Option (List Nat)

/-- The bytes behind the shared handle a chunk's read uses (the file the
registry opened for `c.filepath`; only ever used under the guard that the
open succeeded). -/
def fileContent (fs : FS) (c : ChunkInfo) : List Nat :=
  (fs c.filepath).getD []

/-- `b as i8`: two's-complement reinterpretation of a byte. -/
def byteToI8 (b : Nat) : Int :=
  if b < 128 then (b : Int) else (b : Int) - 256

/-- `file.seek(SeekFrom::Start(start))` followed by
`file.read_exact(&mut buffer)` with `buffer.len() = len`: `read_exact`
returns `Ok` immediately when the buffer is empty (even past EOF), returns
the requested slice when `len` bytes are available from `start`, and fails
with `UnexpectedEof` otherwise. Seeking beyond EOF itself succeeds. -/
def readRange (content : List Nat) (start len : Nat) : Option (List Nat) :=
  if len = 0 then some []
  else if start + len ≤ content.length then some ((content.drop start).take len)
  else none

/-- `lo ≤ b < hi`, as a boolean on byte values. -/
def inRange (lo hi b : Nat) : Bool :=
  decide (lo ≤ b) && decide (b < hi)

/-- UTF-8 validity of a byte list, as checked by `String::from_utf8`:
ASCII bytes stand alone; C2..DF starts a 2-byte sequence; E0..EF a 3-byte
sequence (E0 requires A0..BF, ED requires 80..9F as first continuation);
F0..F4 a 4-byte sequence (F0 requires 90..BF, F4 requires 80..8F as first
continuation); continuation bytes are 80..BF. -/
def utf8Valid : List Nat → Bool
  | [] => true
  | b :: rest =>
    if b < 0x80 then utf8Valid rest
    else if b < 0xC2 then false
    else if b < 0xE0 then
      match rest with
      | b1 :: rest2 => inRange 0x80 0xC0 b1 && utf8Valid rest2
      | [] => false
    else if b < 0xF0 then
      match rest with
      | b1 :: b2 :: rest3 =>
        (if b = 0xE0 then inRange 0xA0 0xC0 b1
         else if b = 0xED then inRange 0x80 0xA0 b1
         else inRange 0x80 0xC0 b1) &&
        inRange 0x80 0xC0 b2 && utf8Valid rest3
      | _ => false
    else if b < 0xF5 then
      match rest with
      | b1 :: b2 :: b3 :: rest4 =>
        (if b = 0xF0 then inRange 0x90 0xC0 b1
         else if b = 0xF4 then inRange 0x80 0x90 b1
         else inRange 0x80 0xC0 b1) &&
        inRange 0x80 0xC0 b2 && inRange 0x80 0xC0 b3 && utf8Valid rest4
      | _ => false
    else false

/-- `load_chunk`: allocate a buffer of `end_idx - start_idx` bytes, clone
the shared handle (`try_clone`, modelled as always succeeding), seek to
`start_idx`, `read_exact` the buffer, then decode per `data_type`.
`end_idx < start_idx` makes the `u64` subtraction underflow, a
debug-build panic (line 28 of the source). -/
def load_chunk (content : List Nat) (chunk : ChunkInfo) (data_type : DataType) :
    Outcome LoadedData :=
  if chunk.end_idx < chunk.start_idx then .panicked
  else
    match readRange content chunk.start_idx (chunk.end_idx - chunk.start_idx) with
    | none => .err .unexpectedEof
    | some buffer =>
      match data_type with
      | .int8 => .ok (.int8 (buffer.map byteToI8))
      | .utf8Str =>
        if utf8Valid buffer then .ok (.utf8Str [buffer])
        else .err (.invalidData buffer)

/-- The sequence of `File::open` calls `load_arrays` makes while building
`file_map`: the chunk paths are collected into a `HashSet` and each
distinct path is opened exactly once (`dedup` keeps one occurrence per
distinct path; the list order stands in for the arbitrary hash-set
iteration order, which no claim depends on). -/
def openEvents (chunks : List ChunkInfo) : List String :=
  (chunks.map (fun c => c.filepath)).dedup

/-- The handle a chunk's read uses: `file_map.get(&chunk.filepath)`, the
single handle opened for its path, identified here by the position of the
path in the open sequence. -/
def handleFor (chunks : List ChunkInfo) (c : ChunkInfo) : Nat :=
  (openEvents chunks).indexOf c.filepath

/-- `collect::<io::Result<Vec<LoadedData>>>()` over per-chunk outcomes, in
chunk-index order: all `Ok` yields the value list; otherwise the first
failing outcome (in index order) is propagated. -/
def collectOutcomes : List (Outcome LoadedData) → Outcome (List LoadedData)
  | [] => .ok []
  | .ok d :: rest =>
    match collectOutcomes rest with
    | .ok ds => .ok (d :: ds)
    | .err e => .err e
    | .panicked => .panicked
  | .err e :: _ => .err e
  | .panicked :: _ => .panicked

/-- The `Int8` arm of the final concatenation: `flat_map` keeping `Int8`
payloads and substituting `vec![]` for any other variant. -/
def concatInt8 : List LoadedData → List Int
  | [] => []
  | .int8 v :: rest => v ++ concatInt8 rest
  | _ :: rest => concatInt8 rest

/-- The `Utf8Str` arm of the final concatenation. -/
def concatUtf8 : List LoadedData → List (List Nat)
  | [] => []
  | .utf8Str v :: rest => v ++ concatUtf8 rest
  | _ :: rest => concatUtf8 rest

/-- The final `match data_type` concatenation step of `load_arrays`. -/
def concatenate (data_type : DataType) (ds : List LoadedData) : LoadedData :=
  match data_type with
  | .int8 => .int8 (concatInt8 ds)
  | .utf8Str => .utf8Str (concatUtf8 ds)

/-- `load_arrays`, sequential reading: open every distinct path (any
failed open is an `unwrap` panic, before any chunk is read), run
`load_chunk` on each chunk in input order, collect, and concatenate.
Rayon's indexed `collect` keeps results in input-index order, so this is
the reference semantics; `load_arrays_sched` below makes the concurrent
execution order explicit. -/
def load_arrays (fs : FS) (chunks : List ChunkInfo) (data_type : DataType) :
    Outcome LoadedData :=
  if (openEvents chunks).all (fun p => (fs p).isSome) then
    match collectOutcomes (chunks.map (fun c => load_chunk (fileContent fs c) c data_type)) with
    | .ok ds => .ok (concatenate data_type ds)
    | .err e => .err e
    | .panicked => .panicked
  else .panicked

/-- The outcome of the chunk task at index `i` of the job (out-of-range
indices never occur for schedules covering `List.range chunks.length`). -/
def chunkOutcome (fs : FS) (data_type : DataType) (chunks : List ChunkInfo) (i : Nat) :
    Outcome LoadedData :=
  match chunks[i]? with
  | some c => load_chunk (fileContent fs c) c data_type
  | none => .panicked

/-- Execute chunk tasks in the order given by `sched`, writing each
result into the slot of its original index (rayon's `into_par_iter`
collection is keyed by input index, not completion order). -/
def fillSlots (work : Nat → Outcome LoadedData) :
    List Nat → List (Option (Outcome LoadedData)) → List (Option (Outcome LoadedData))
  | [], slots => slots
  | i :: rest, slots => fillSlots work rest (slots.set i (some (work i)))

/-- Read the filled slot array back in ascending index order. -/
def collectSlots : List (Option (Outcome LoadedData)) → Outcome (List LoadedData)
  | [] => .ok []
  | none :: _ => .panicked
  | some (.ok d) :: rest =>
    match collectSlots rest with
    | .ok ds => .ok (d :: ds)
    | .err e => .err e
    | .panicked => .panicked
  | some (.err e) :: _ => .err e
  | some .panicked :: _ => .panicked

/-- `load_arrays` with the concurrent execution order made explicit: the
chunk tasks run (atomically, one chunk = one unit of work) in the order
given by `sched`, their results are collected by original index, and the
per-index outcomes are then combined exactly as in `load_arrays`. -/
def load_arrays_sched (fs : FS) (chunks : List ChunkInfo) (data_type : DataType)
    (sched : List Nat) : Outcome LoadedData :=
  if (openEvents chunks).all (fun p => (fs p).isSome) then
    match collectSlots (fillSlots (chunkOutcome fs data_type chunks) sched
        (List.replicate chunks.length none)) with
    | .ok ds => .ok (concatenate data_type ds)
    | .err e => .err e
    | .panicked => .panicked
  else .panicked

/-- `args[i+1].parse::<u64>()`: an optional leading `+`, then one or more
ASCII digits whose value fits in a `u64`; anything else is a parse error
(which `parse_args` unwraps into a panic). -/
def digitsToNat (l : List Char) : Nat :=
  l.foldl (fun n c => n * 10 + (c.toNat - 48)) 0

def parseU64 (s : String) : Option Nat :=
  let cs := if s.toList.head? = some '+' then s.toList.tail else s.toList
  if !cs.isEmpty && cs.all Char.isDigit && decide (digitsToNat cs < 2 ^ 64) then
    some (digitsToNat cs)
  else none

/-- The element type an `args[i]` token denotes (only applied to tokens
already known to be `"int8"` or `"utf8"`). -/
def dtOf (s : String) : DataType :=
  if s = "int8" then .int8 else .utf8Str

/-- The two nested `while` loops of `parse_args`, fused into one pass.
`parseGo dt l` parses the remaining chunk triples of the current job
(whose type token was already consumed) and all following jobs, returning
(current job's chunks, later jobs). A triple is consumed while at least
three arguments remain and the next one is not an element-type token; a
failed offset parse (`parse().unwrap()`) and an unexpected non-token
argument (`panic!("Invalid data type")`) are panics. No relation between
`start_idx` and `end_idx` is ever checked. -/
def parseGo (dt : DataType) :
    List String → Outcome (List ChunkInfo × List (DataType × List ChunkInfo))
  | a :: b :: c :: rest =>
    if a = "int8" ∨ a = "utf8" then
      match parseGo (dtOf a) (b :: c :: rest) with
      | .ok (chunks, jobs) => .ok ([], (dtOf a, chunks) :: jobs)
      | .err e => .err e
      | .panicked => .panicked
    else
      match parseU64 b with
      | none => .panicked
      | some s =>
        match parseU64 c with
        | none => .panicked
        | some eIdx =>
          match parseGo dt rest with
          | .ok (chunks, jobs) => .ok (⟨a, s, eIdx⟩ :: chunks, jobs)
          | .err e => .err e
          | .panicked => .panicked
  | [a] =>
    if a = "int8" ∨ a = "utf8" then .ok ([], [(dtOf a, [])]) else .panicked
  | [a, b] =>
    if a = "int8" ∨ a = "utf8" then
      if b = "int8" ∨ b = "utf8" then .ok ([], [(dtOf a, []), (dtOf b, [])])
      else .panicked
    else .panicked
  | [] => .ok ([], [])

/-- `parse_args` over the argument list after the program name: each
iteration of the outer loop reads an element-type token — panicking on
anything else — then the chunk triples that follow. -/
def parseJobs : List String → Outcome (List (DataType × List ChunkInfo))
  | [] => .ok []
  | tok :: rest =>
    if tok = "int8" ∨ tok = "utf8" then
      match parseGo (dtOf tok) rest with
      | .ok (chunks, jobs) => .ok ((dtOf tok, chunks) :: jobs)
      | .err e => .err e
      | .panicked => .panicked
    else .panicked

/-- What `main` prints for one successfully loaded job: the element count
for `Int8`; the string count, the first five strings, and whether more
exist for `Utf8Str`. -/
inductive JobReport where
  | int8Count (n : Nat)
  | utf8Count (n : Nat) (preview : List (List Nat)) (more : Bool)
deriving DecidableEq

def reportOf : LoadedData → JobReport
  | .int8 v => .int8Count v.length
  | .utf8Str ss => .utf8Count ss.length (ss.take 5) (decide (ss.length > 5))

/-- The `for (data_type, chunks) in args` loop of `main`: each job runs
`load_arrays` and the `?` operator returns the first failing job's error
out of `main`, so no later job is processed; a panic likewise aborts the
process. -/
def runJobs (fs : FS) : List (DataType × List ChunkInfo) → Outcome (List JobReport)
  | [] => .ok []
  | (data_type, chunks) :: rest =>
    match load_arrays fs chunks data_type with
    | .ok d =>
      match runJobs fs rest with
      | .ok reports => .ok (reportOf d :: reports)
      | .err e => .err e
      | .panicked => .panicked
    | .err e => .err e
    | .panicked => .panicked

/-!
Micro-step model of two chunk reads of the same file running
concurrently. `File::try_clone` duplicates the OS handle, and per its
documented semantics both handles read and write with the same cursor
position; so the two workers' `seek`/`read_exact` pairs operate on one
shared `pos`.
-/

/-- State of two in-flight chunk reads sharing one cursor: the shared
position, each task's program counter (0 = about to seek, 1 = about to
read, 2 = done), each task's buffer once its read completed, and whether
any `read_exact` failed. -/
structure TwoReadState where
  pos : Nat
  pcA : Nat
  pcB : Nat
  bufA : Option (List Nat)
  bufB : Option (List Nat)
  failed : Bool
deriving DecidableEq

/-- One step of a task running `seek(Start(start_idx))` then
`read_exact(end_idx - start_idx bytes)` on the shared cursor: returns the
new shared position, the task's new program counter and buffer, and a
failure flag. -/
def readStep (content : List Nat) (c : ChunkInfo) (pos pc : Nat)
    (buf : Option (List Nat)) : Nat × Nat × Option (List Nat) × Bool :=
  if pc = 0 then (c.start_idx, 1, buf, false)
  else if pc = 1 then
    let len := c.end_idx - c.start_idx
    if pos + len ≤ content.length then
      (pos + len, 2, some ((content.drop pos).take len), false)
    else (pos, 2, buf, true)
  else (pos, pc, buf, false)

/-- Run one scheduled step: `false` steps the first task, `true` the
second. -/
def stepTwo (content : List Nat) (cA cB : ChunkInfo) (s : TwoReadState)
    (who : Bool) : TwoReadState :=
  if who then
    match readStep content cB s.pos s.pcB s.bufB with
    | (p, pc, b, f) => ⟨p, s.pcA, pc, s.bufA, b, s.failed || f⟩
  else
    match readStep content cA s.pos s.pcA s.bufA with
    | (p, pc, b, f) => ⟨p, pc, s.pcB, b, s.bufB, s.failed || f⟩

/-- Run both chunk reads under the interleaving `sched`. -/
def runTwoReads (content : List Nat) (cA cB : ChunkInfo) (sched : List Bool) :
    TwoReadState :=
  sched.foldl (stepTwo content cA cB) ⟨0, 0, 0, none, none, false⟩

/-! Concrete inputs used by the scenario conjuncts, counterexamples and
witnesses. -/

/-- Scenario A's filesystem: `file.bin` holds bytes `[0x01, 0x02, 0xFF, 0x80]`. -/
def fsA : FS := fun p => if p = "file.bin" then some [1, 2, 255, 128] else none

/-- A four-byte file used by witnesses. -/
def fsW : FS := fun p => if p = "w.bin" then some [3, 4, 200, 6] else none

/-- Scenario B's filesystem: `a.txt` holds "helloworld". -/
def fsB : FS := fun p =>
  if p = "a.txt" then some [104, 101, 108, 108, 111, 119, 111, 114, 108, 100] else none

/-- A two-byte text file holding "hi". -/
def fsH : FS := fun p => if p = "h.txt" then some [104, 105] else none

/-- A filesystem with one readable file, used by the job-independence
counterexample. -/
def fsJobs : FS := fun p => if p = "data.bin" then some [1, 2, 3, 4] else none

/-- The empty filesystem: every open fails. -/
def fsEmpty : FS := fun _ => none

/-- An eight-byte file read by two chunks concurrently. -/
def demoBytes : List Nat := [10, 11, 12, 13, 14, 15, 16, 17]

def chunkFirstHalf : ChunkInfo := ⟨"f.bin", 0, 4⟩

def chunkSecondHalf : ChunkInfo := ⟨"f.bin", 4, 8⟩

/-- The filesystem of the two-chunk job over `f.bin`. -/
def fsDemo : FS := fun p => if p = "f.bin" then some demoBytes else none

/-! Helper lemmas. -/

/-- A successful `read_exact` returns exactly the requested number of bytes. -/
theorem readRange_length {content : List Nat} {start len : Nat} {bs : List Nat}
    (h : readRange content start len = some bs) : bs.length = len := by
  unfold readRange at h
  by_cases h0 : len = 0
  · rw [if_pos h0] at h
    cases h
    simp [h0]
  · rw [if_neg h0] at h
    by_cases hle : start + len ≤ content.length
    · rw [if_pos hle] at h
      cases h
      simp only [List.length_take, List.length_drop]
      omega
    · rw [if_neg hle] at h
      cases h

/-- A successful `Int8` chunk decode yields one element per requested byte. -/
theorem load_chunk_int8_ok {content : List Nat} {c : ChunkInfo} {d : LoadedData}
    (h : load_chunk content c .int8 = .ok d) :
    ∃ w : List Int, d = .int8 w ∧ w.length = c.end_idx - c.start_idx := by
  unfold load_chunk at h
  by_cases hlt : c.end_idx < c.start_idx
  · rw [if_pos hlt] at h
    cases h
  · rw [if_neg hlt] at h
    cases hr : readRange content c.start_idx (c.end_idx - c.start_idx) with
    | none => rw [hr] at h; cases h
    | some buffer =>
      rw [hr] at h
      cases h
      exact ⟨buffer.map byteToI8, rfl, by rw [List.length_map, readRange_length hr]⟩

/-- A successful `Utf8Str` chunk decode yields exactly one string. -/
theorem load_chunk_utf8_ok {content : List Nat} {c : ChunkInfo} {d : LoadedData}
    (h : load_chunk content c .utf8Str = .ok d) :
    ∃ s : List Nat, d = .utf8Str [s] := by
  unfold load_chunk at h
  by_cases hlt : c.end_idx < c.start_idx
  · rw [if_pos hlt] at h
    cases h
  · rw [if_neg hlt] at h
    cases hr : readRange content c.start_idx (c.end_idx - c.start_idx) with
    | none => rw [hr] at h; cases h
    | some buffer =>
      rw [hr] at h
      simp only at h
      by_cases hv : utf8Valid buffer = true
      · rw [if_pos hv] at h
        cases h
        exact ⟨buffer, rfl⟩
      · rw [if_neg hv] at h
        cases h

/-- A successful collect means every chunk's outcome was `Ok` and the
values are kept in input order. -/
theorem collectOutcomes_ok :
    ∀ {outs : List (Outcome LoadedData)} {ds : List LoadedData},
      collectOutcomes outs = .ok ds → outs = ds.map Outcome.ok
  | [], ds, h => by
      cases h
      rfl
  | .ok d :: rest, ds, h => by
      simp only [collectOutcomes] at h
      cases hr : collectOutcomes rest with
      | ok ds2 =>
        rw [hr] at h
        cases h
        simp [collectOutcomes_ok hr]
      | err e => rw [hr] at h; cases h
      | panicked => rw [hr] at h; cases h
  | .err e :: rest, ds, h => by cases h
  | .panicked :: rest, ds, h => by cases h

/-- Collecting a list of `Ok` outcomes yields their values. -/
theorem collectOutcomes_map_ok :
    ∀ (ds : List LoadedData), collectOutcomes (ds.map Outcome.ok) = .ok ds
  | [] => rfl
  | d :: rest => by
      simp only [List.map_cons, collectOutcomes, collectOutcomes_map_ok rest]

/-- When no outcome panicked and some outcome is an error, the collect
returns one of the chunk errors. -/
theorem collectOutcomes_first_err :
    ∀ {outs : List (Outcome LoadedData)},
      (∀ o ∈ outs, o ≠ .panicked) → (∃ e, Outcome.err e ∈ outs) →
      ∃ e, Outcome.err e ∈ outs ∧ collectOutcomes outs = .err e
  | [], _, he => absurd he.choose_spec (by simp)
  | .ok d :: rest, hnp, he => by
      obtain ⟨e, hmem⟩ := he
      have hrest : ∃ e, Outcome.err e ∈ rest := by
        rcases List.mem_cons.1 hmem with h | h
        ·
          cases h
        · exact ⟨e, h⟩
      obtain ⟨e2, hmem2, hcoll⟩ :=
        collectOutcomes_first_err (fun o ho => hnp o (List.mem_cons.2 (Or.inr ho))) hrest
      refine ⟨e2, List.mem_cons.2 (Or.inr hmem2), ?_⟩
      simp only [collectOutcomes, hcoll]
  | .err e :: rest, _, _ =>
      ⟨e, List.mem_cons.2 (Or.inl rfl), rfl⟩
  | .panicked :: rest, hnp, _ =>
      absurd rfl (hnp .panicked (List.mem_cons.2 (Or.inl rfl)))

/-- Concatenating `Int8` partial results flattens them in order. -/
theorem concatInt8_map :
    ∀ (vs : List (List Int)), concatInt8 (vs.map LoadedData.int8) = vs.flatten
  | [] => rfl
  | v :: rest => by simp only [List.map_cons, concatInt8, List.flatten_cons,
      concatInt8_map rest]

/-- Concatenating `Utf8Str` singleton partial results lists the strings
in chunk order. -/
theorem concatUtf8_map_singleton :
    ∀ (ss : List (List Nat)),
      concatUtf8 (ss.map (fun s => LoadedData.utf8Str [s])) = ss
  | [] => rfl
  | s :: rest => by
      simp only [List.map_cons, concatUtf8, concatUtf8_map_singleton rest,
        List.singleton_append]

/-- If all chunk loads of an `Int8` job succeeded, the concatenated
element count is the sum of the chunk byte lengths. -/
theorem int8_concat_length (fs : FS) :
    ∀ (chunks : List ChunkInfo) (ds : List LoadedData),
      chunks.map (fun c => load_chunk (fileContent fs c) c .int8) = ds.map Outcome.ok →
      (concatInt8 ds).length = (chunks.map (fun c => c.end_idx - c.start_idx)).sum
  | [], ds, h => by
      cases ds with
      | nil => rfl
      | cons d rest => cases h
  | c :: rest, ds, h => by
      cases ds with
      | nil => cases h
      | cons d ds2 =>
        simp only [List.map_cons, List.cons.injEq] at h
        obtain ⟨w, hw, hwl⟩ := load_chunk_int8_ok h.1
        subst hw
        simp only [concatInt8, List.length_append, List.map_cons, List.sum_cons, hwl,
          int8_concat_length fs rest ds2 h.2]

/-- If all chunk loads of a `Utf8Str` job succeeded, the string count is
the chunk count. -/
theorem utf8_concat_count (fs : FS) :
    ∀ (chunks : List ChunkInfo) (ds : List LoadedData),
      chunks.map (fun c => load_chunk (fileContent fs c) c .utf8Str) = ds.map Outcome.ok →
      (concatUtf8 ds).length = chunks.length
  | [], ds, h => by
      cases ds with
      | nil => rfl
      | cons d rest => cases h
  | c :: rest, ds, h => by
      cases ds with
      | nil => cases h
      | cons d ds2 =>
        simp only [List.map_cons, List.cons.injEq] at h
        obtain ⟨s, hs⟩ := load_chunk_utf8_ok h.1
        subst hs
        simp only [concatUtf8, List.singleton_append, List.length_cons,
          utf8_concat_count fs rest ds2 h.2]

/-- Filling slots writes each scheduled index's result into its own slot
(rewrites to the same value are idempotent because the task's result is a
function of its index alone). -/
theorem fillSlots_getElem? (work : Nat → Outcome LoadedData) :
    ∀ (sched : List Nat) (slots : List (Option (Outcome LoadedData))) (j : Nat),
      (fillSlots work sched slots)[j]? =
        if j ∈ sched ∧ j < slots.length then some (some (work j)) else slots[j]?
  | [], slots, j => by simp [fillSlots]
  | i :: rest, slots, j => by
      simp only [fillSlots]
      rw [fillSlots_getElem? work rest]
      simp only [List.length_set, List.mem_cons, List.getElem?_set]
      by_cases hjr : j ∈ rest
      · by_cases hjl : j < slots.length
        · simp [hjr, hjl]
        · simp only [hjr, hjl, and_false, if_false, or_true, true_and]
          by_cases hij : i = j
          · simp [hij, hjl, List.getElem?_eq_none (by omega : slots.length ≤ j)]
          · simp [hij]
      · by_cases hij : i = j
        · subst hij
          by_cases hil : i < slots.length
          · simp [hjr, hil]
          · simp [hjr, hil, List.getElem?_eq_none (by omega : slots.length ≤ i)]
        · simp only [hjr, Ne.symm hij, and_false, false_and, if_false, if_neg]
          simp [List.getElem?_set, hij]

/-- A schedule covering every index fills the whole slot array with the
per-index results, independently of the execution order. -/
theorem fillSlots_covering (work : Nat → Outcome LoadedData) (n : Nat) (sched : List Nat)
    (hcov : ∀ j, j < n → j ∈ sched) :
    fillSlots work sched (List.replicate n none) =
      (List.range n).map (fun j => some (work j)) := by
  apply List.ext_getElem?
  intro j
  rw [fillSlots_getElem?]
  simp only [List.length_replicate, List.getElem?_replicate, List.getElem?_map]
  by_cases hj : j < n
  · simp [hj, hcov j hj, List.getElem?_range hj]
  · simp [hj, List.getElem?_eq_none (by simpa using not_lt.1 hj : (List.range n).length ≤ j)]

/-- Reading back a fully-filled slot array is the sequential collect. -/
theorem collectSlots_map_some :
    ∀ (outs : List (Outcome LoadedData)),
      collectSlots (outs.map some) = collectOutcomes outs
  | [] => rfl
  | .ok d :: rest => by
      simp only [List.map_cons, collectSlots, collectOutcomes, collectSlots_map_some rest]
  | .err e :: rest => by simp only [List.map_cons, collectSlots, collectOutcomes]
  | .panicked :: rest => by simp only [List.map_cons, collectSlots, collectOutcomes]

/-- Task outcomes by index are the chunk loads in input order. -/
theorem range_map_chunkOutcome (fs : FS) (data_type : DataType) (chunks : List ChunkInfo) :
    (List.range chunks.length).map (chunkOutcome fs data_type chunks)
      = chunks.map (fun c => load_chunk (fileContent fs c) c data_type) := by
  apply List.ext_getElem?
  intro j
  rw [List.getElem?_map, List.getElem?_map]
  by_cases hj : j < chunks.length
  · rw [List.getElem?_range hj, List.getElem?_eq_getElem hj]
    simp [chunkOutcome, List.getElem?_eq_getElem hj]
  · rw [List.getElem?_eq_none (by simpa using not_lt.1 hj : (List.range chunks.length).length ≤ j),
      List.getElem?_eq_none (not_lt.1 hj)]
    rfl

/-- Any execution order covering all chunk indices produces the same
result as the sequential reference reading. -/
theorem load_arrays_sched_eq (fs : FS) (chunks : List ChunkInfo) (data_type : DataType)
    (sched : List Nat) (hcov : ∀ j, j < chunks.length → j ∈ sched) :
    load_arrays_sched fs chunks data_type sched = load_arrays fs chunks data_type := by
  unfold load_arrays_sched load_arrays
  rw [fillSlots_covering _ _ _ hcov,
    show (List.range chunks.length).map (fun j => some (chunkOutcome fs data_type chunks j))
      = ((List.range chunks.length).map (chunkOutcome fs data_type chunks)).map some by
        rw [List.map_map]; rfl,
    collectSlots_map_some, range_map_chunkOutcome]

/-- A permutation of the chunk indices covers every index. -/
theorem perm_covers {sched : List Nat} {n : Nat}
    (hs : sched.Perm (List.range n)) : ∀ j, j < n → j ∈ sched :=
  fun j hj => hs.mem_iff.2 (List.mem_range.2 hj)

/-- Eliminate a successful `load_arrays`: all opens succeeded, all chunk
loads succeeded, and the result is their in-order concatenation. -/
theorem load_arrays_ok_elim {fs : FS} {chunks : List ChunkInfo} {data_type : DataType}
    {d : LoadedData} (h : load_arrays fs chunks data_type = .ok d) :
    (openEvents chunks).all (fun p => (fs p).isSome) = true ∧
    ∃ ds, collectOutcomes (chunks.map fun c => load_chunk (fileContent fs c) c data_type)
        = .ok ds ∧ d = concatenate data_type ds := by
  unfold load_arrays at h
  by_cases hopen : (openEvents chunks).all (fun p => (fs p).isSome) = true
  · rw [if_pos hopen] at h
    refine ⟨hopen, ?_⟩
    cases hc : collectOutcomes (chunks.map fun c => load_chunk (fileContent fs c) c data_type) with
    | ok ds =>
      rw [hc] at h
      cases h
      exact ⟨ds, rfl, rfl⟩
    | err e => rw [hc] at h; cases h
    | panicked => rw [hc] at h; cases h
  · rw [if_neg (by simpa using hopen)] at h
    cases h

/-! Claim theorems. -/

/-- Claim C1, the code's actual behaviour at the failing input: the
strictly sequential decode of the `Int8` job with chunks `(f.bin, 0, 4)`
and `(f.bin, 4, 8)` over the 8-byte `f.bin` is `[10, ..., 17]` — but the
two workers' `try_clone`'d handles share one cursor, and under the
interleaving B.seek(4), A.seek(0), B.read, A.read both `read_exact`
calls succeed with swapped byte ranges: chunk 0's buffer holds bytes
4..8 and chunk 1's holds bytes 0..4, no error is raised, and the job's
index-keyed assembly then concatenates them into the successful array
`[14, 15, 16, 17, 10, 11, 12, 13]`, which differs from the sequential
decode — so the output does not equal the sequential in-order decode
regardless of execution order. -/
theorem c1_swapped_halves_race :
    load_arrays fsDemo [chunkFirstHalf, chunkSecondHalf] .int8
      = .ok (.int8 [10, 11, 12, 13, 14, 15, 16, 17])
    ∧ (runTwoReads demoBytes chunkFirstHalf chunkSecondHalf [true, false, true, false]).bufA
        = some [14, 15, 16, 17]
    ∧ (runTwoReads demoBytes chunkFirstHalf chunkSecondHalf [true, false, true, false]).bufB
        = some [10, 11, 12, 13]
    ∧ (runTwoReads demoBytes chunkFirstHalf chunkSecondHalf [true, false, true, false]).failed
        = false
    ∧ ((runTwoReads demoBytes chunkFirstHalf chunkSecondHalf
            [true, false, true, false]).bufA.getD []).map byteToI8
        ++ ((runTwoReads demoBytes chunkFirstHalf chunkSecondHalf
            [true, false, true, false]).bufB.getD []).map byteToI8
        ≠ [10, 11, 12, 13, 14, 15, 16, 17] := by decide

/-- Claim C2: if the read or decode of at least one chunk fails (no chunk
panics, so errors are returned rather than aborting the process, and all
opens succeed), the job returns a failing chunk's error and no array at
all, under every execution order. -/
theorem c2_fail_fast (fs : FS) (chunks : List ChunkInfo) (data_type : DataType)
    (sched : List Nat) (hs : sched.Perm (List.range chunks.length))
    (hopen : (openEvents chunks).all (fun p => (fs p).isSome) = true)
    (hnp : ∀ c ∈ chunks, load_chunk (fileContent fs c) c data_type ≠ .panicked)
    (c0 : ChunkInfo) (hc0 : c0 ∈ chunks) (e0 : IOError)
    (hfail : load_chunk (fileContent fs c0) c0 data_type = .err e0) :
    (∀ d, load_arrays_sched fs chunks data_type sched ≠ .ok d)
    ∧ ∃ cf ∈ chunks, ∃ ef, load_chunk (fileContent fs cf) cf data_type = .err ef
        ∧ load_arrays_sched fs chunks data_type sched = .err ef := by
  rw [load_arrays_sched_eq fs chunks data_type sched (perm_covers hs)]
  have hnp2 : ∀ o ∈ chunks.map (fun c => load_chunk (fileContent fs c) c data_type),
      o ≠ Outcome.panicked := by
    intro o ho
    obtain ⟨c, hc, hco⟩ := List.mem_map.1 ho
    rw [← hco]
    exact hnp c hc
  obtain ⟨ef, hmem, hcoll⟩ := collectOutcomes_first_err hnp2
    ⟨e0, List.mem_map.2 ⟨c0, hc0, hfail⟩⟩
  have harr : load_arrays fs chunks data_type = .err ef := by
    simp only [load_arrays, hopen, if_true, hcoll]
  obtain ⟨cf, hcf, hcfeq⟩ := List.mem_map.1 hmem
  refine ⟨fun d hd => ?_, cf, hcf, ef, hcfeq, harr⟩
  rw [harr] at hd
  cases hd

/-- Witness for C2: a job whose second chunk requests bytes past the end
of `w.bin`, run with the second chunk first. -/
theorem c2_fail_fast_witness :
    (∀ d, load_arrays_sched fsW [⟨"w.bin", 0, 2⟩, ⟨"w.bin", 2, 9⟩] .int8 [1, 0] ≠ .ok d)
    ∧ ∃ cf ∈ [(⟨"w.bin", 0, 2⟩ : ChunkInfo), ⟨"w.bin", 2, 9⟩], ∃ ef,
        load_chunk (fileContent fsW cf) cf .int8 = .err ef
        ∧ load_arrays_sched fsW [⟨"w.bin", 0, 2⟩, ⟨"w.bin", 2, 9⟩] .int8 [1, 0] = .err ef :=
  c2_fail_fast fsW [⟨"w.bin", 0, 2⟩, ⟨"w.bin", 2, 9⟩] .int8 [1, 0] (by decide)
    (by decide) (by decide) ⟨"w.bin", 2, 9⟩ (by decide) .unexpectedEof (by decide)

/-- Claim C3: a successful `FixedByte` job reinterprets each raw byte as
a signed 8-bit integer by two's-complement (0xFF is -1, 0x80 is -128,
200 is -56), the total element count is the sum of
`end_offset - start_offset` over the chunks, and Scenario A's one-chunk
job over bytes `[0x01, 0x02, 0xFF, 0x80]` yields `[1, 2, -1, -128]`. -/
theorem c3_fixed_byte (fs : FS) (chunks : List ChunkInfo) (sched : List Nat)
    (v : List Int) (hs : sched.Perm (List.range chunks.length))
    (h : load_arrays_sched fs chunks .int8 sched = .ok (.int8 v)) :
    v.length = (chunks.map (fun c => c.end_idx - c.start_idx)).sum
    ∧ byteToI8 1 = 1 ∧ byteToI8 2 = 2 ∧ byteToI8 255 = -1 ∧ byteToI8 128 = -128
    ∧ byteToI8 200 = -56
    ∧ load_arrays fsA [⟨"file.bin", 0, 4⟩] .int8 = .ok (.int8 [1, 2, -1, -128]) := by
  rw [load_arrays_sched_eq fs chunks .int8 sched (perm_covers hs)] at h
  obtain ⟨hopen, ds, hcoll, hd⟩ := load_arrays_ok_elim h
  have hmap := collectOutcomes_ok hcoll
  have hv : v = concatInt8 ds := by
    simp only [concatenate] at hd
    cases hd
    rfl
  refine ⟨?_, by decide, by decide, by decide, by decide, by decide, by decide⟩
  rw [hv]
  exact int8_concat_length fs chunks ds hmap

/-- Witness for C3 at Scenario A itself. -/
theorem c3_fixed_byte_witness :
    ([1, 2, -1, -128] : List Int).length
        = (([⟨"file.bin", 0, 4⟩] : List ChunkInfo).map (fun c => c.end_idx - c.start_idx)).sum
    ∧ byteToI8 1 = 1 ∧ byteToI8 2 = 2 ∧ byteToI8 255 = -1 ∧ byteToI8 128 = -128
    ∧ byteToI8 200 = -56
    ∧ load_arrays fsA [⟨"file.bin", 0, 4⟩] .int8 = .ok (.int8 [1, 2, -1, -128]) :=
  c3_fixed_byte fsA [⟨"file.bin", 0, 4⟩] [0] [1, 2, -1, -128] (by decide) (by decide)

/-- Claim C4: a successful `Utf8Text` job yields exactly one string per
chunk — the output string count equals the chunk count — and a
zero-length chunk decodes to one empty string. -/
theorem c4_utf8_count (fs : FS) (chunks : List ChunkInfo) (sched : List Nat)
    (ss : List (List Nat)) (hs : sched.Perm (List.range chunks.length))
    (h : load_arrays_sched fs chunks .utf8Str sched = .ok (.utf8Str ss)) :
    ss.length = chunks.length
    ∧ ∀ (content : List Nat) (c : ChunkInfo), c.end_idx = c.start_idx →
        load_chunk content c .utf8Str = .ok (.utf8Str [[]]) := by
  rw [load_arrays_sched_eq fs chunks .utf8Str sched (perm_covers hs)] at h
  obtain ⟨hopen, ds, hcoll, hd⟩ := load_arrays_ok_elim h
  have hmap := collectOutcomes_ok hcoll
  have hss : ss = concatUtf8 ds := by
    simp only [concatenate] at hd
    cases hd
    rfl
  refine ⟨?_, ?_⟩
  · rw [hss]
    exact utf8_concat_count fs chunks ds hmap
  · intro content c hc
    have hlt : ¬ c.end_idx < c.start_idx := by omega
    have hlen : c.end_idx - c.start_idx = 0 := by omega
    simp [load_chunk, readRange, hlt, hlen, show utf8Valid [] = true from rfl]

/-- Witness for C4: a two-chunk `Utf8Text` job over "hi", executed in
reverse order, and a zero-length chunk past end of file. -/
theorem c4_utf8_count_witness :
    ([[104], [105]] : List (List Nat)).length
        = ([⟨"h.txt", 0, 1⟩, ⟨"h.txt", 1, 2⟩] : List ChunkInfo).length
    ∧ load_chunk [1] ⟨"zero.bin", 5, 5⟩ .utf8Str = .ok (.utf8Str [[]]) :=
  ⟨(c4_utf8_count fsH [⟨"h.txt", 0, 1⟩, ⟨"h.txt", 1, 2⟩] [1, 0] [[104], [105]]
      (by decide) (by decide)).1,
    (c4_utf8_count fsH [⟨"h.txt", 0, 1⟩, ⟨"h.txt", 1, 2⟩] [1, 0] [[104], [105]]
      (by decide) (by decide)).2 [1] ⟨"zero.bin", 5, 5⟩ rfl⟩

/-- Claim C5 counterexample: with `data.bin` holding four bytes, a first
job that requests 100 bytes fails, and `main`'s `?` operator makes the
whole run return that error: the second job — although it would have
succeeded on its own — is never dispatched and no report for it exists,
refuting the claim that a job's failure does not abort sibling jobs. -/
theorem c5_counterexample :
    runJobs fsJobs [(.int8, [⟨"data.bin", 0, 100⟩]), (.int8, [⟨"data.bin", 0, 4⟩])]
      = .err .unexpectedEof
    ∧ load_arrays fsJobs [⟨"data.bin", 0, 4⟩] .int8 = .ok (.int8 [1, 2, 3, 4])
    ∧ ∀ reports,
        runJobs fsJobs [(.int8, [⟨"data.bin", 0, 100⟩]), (.int8, [⟨"data.bin", 0, 4⟩])]
          ≠ .ok reports := by
  refine ⟨by decide, by decide, ?_⟩
  intro reports h
  rw [show runJobs fsJobs [(.int8, [⟨"data.bin", 0, 100⟩]), (.int8, [⟨"data.bin", 0, 4⟩])]
      = .err .unexpectedEof from by decide] at h
  cases h

/-- Claim C5 as amended: when a job fails, `main` propagates that job's
error (or dies on its panic) immediately, so the jobs after it are never
dispatched or reported — appending further jobs after a failing prefix
cannot change the outcome. -/
theorem c5_abort_on_first_failure (fs : FS)
    (js1 js2 : List (DataType × List ChunkInfo)) (e : IOError) :
    (runJobs fs js1 = .err e → runJobs fs (js1 ++ js2) = .err e)
    ∧ (runJobs fs js1 = .panicked → runJobs fs (js1 ++ js2) = .panicked) := by
  induction js1 with
  | nil =>
    constructor
    · intro h
      cases h
    · intro h
      cases h
  | cons job rest ih =>
    obtain ⟨data_type, chunks⟩ := job
    constructor
    · intro h
      simp only [List.cons_append, List.append_eq, runJobs] at h ⊢
      cases h1 : load_arrays fs chunks data_type with
      | ok d =>
        rw [h1] at h
        simp only at h ⊢
        cases h2 : runJobs fs rest with
        | ok reports => rw [h2] at h; cases h
        | err e2 =>
          rw [h2] at h
          cases h
          rw [ih.1 h2]
        | panicked => rw [h2] at h; cases h
      | err e2 =>
        rw [h1] at h
        cases h
        rfl
      | panicked => rw [h1] at h; cases h
    · intro h
      simp only [List.cons_append, List.append_eq, runJobs] at h ⊢
      cases h1 : load_arrays fs chunks data_type with
      | ok d =>
        rw [h1] at h
        simp only at h ⊢
        cases h2 : runJobs fs rest with
        | ok reports => rw [h2] at h; cases h
        | err e2 => rw [h2] at h; cases h
        | panicked => rw [ih.2 h2]
      | err e2 => rw [h1] at h; cases h
      | panicked => rfl

/-- Witness for the amended C5: appending the good second job after the
failing first one still yields only the first job's error. -/
theorem c5_abort_on_first_failure_witness :
    runJobs fsJobs ([(.int8, [⟨"data.bin", 0, 100⟩])] ++ [(.int8, [⟨"data.bin", 0, 4⟩])])
      = .err .unexpectedEof :=
  (c5_abort_on_first_failure fsJobs [(.int8, [⟨"data.bin", 0, 100⟩])]
    [(.int8, [⟨"data.bin", 0, 4⟩])] .unexpectedEof).1 (by decide)

/-- Claim C6 counterexample: with no file openable, `load_arrays` on a
chunk of `missing.bin` panics (the `File::open(..).unwrap()` at line 47)
instead of returning an error value: no `Err` return of any kind — let
alone one carrying the offending path — is produced. -/
theorem c6_counterexample :
    load_arrays fsEmpty [⟨"missing.bin", 0, 4⟩] .int8 = .panicked
    ∧ ∀ e : IOError, (Outcome.panicked : Outcome LoadedData) ≠ .err e :=
  ⟨by decide, fun _ h => Outcome.noConfusion h⟩

/-- Claim C6 as amended: when any chunk's path cannot be opened, the
whole job aborts by panicking (the open's result is unwrapped), before
any chunk is read and without reporting any partial result — but no
error value is returned to the caller. -/
theorem c6_panic_on_open_failure (fs : FS) (chunks : List ChunkInfo)
    (data_type : DataType) (c : ChunkInfo) (hc : c ∈ chunks)
    (hmiss : fs c.filepath = none) :
    load_arrays fs chunks data_type = .panicked
    ∧ ∀ sched, load_arrays_sched fs chunks data_type sched = .panicked := by
  have hall : (openEvents chunks).all (fun p => (fs p).isSome) = false :=
    List.all_eq_false.2 ⟨c.filepath,
      List.mem_dedup.2 (List.mem_map.2 ⟨c, hc, rfl⟩),
      by simp [hmiss]⟩
  constructor
  · simp [load_arrays, hall]
  · intro sched
    simp [load_arrays_sched, hall]

/-- Witness for the amended C6: a job mixing one readable and one
missing path panics under every schedule. -/
theorem c6_panic_on_open_failure_witness :
    load_arrays fsW [⟨"w.bin", 0, 2⟩, ⟨"nope.bin", 0, 1⟩] .int8 = .panicked
    ∧ ∀ sched, load_arrays_sched fsW [⟨"w.bin", 0, 2⟩, ⟨"nope.bin", 0, 1⟩] .int8 sched
        = .panicked :=
  c6_panic_on_open_failure fsW [⟨"w.bin", 0, 2⟩, ⟨"nope.bin", 0, 1⟩] .int8
    ⟨"nope.bin", 0, 1⟩ (by decide) (by decide)

/-- Claim C7 counterexample: the job description `int8 f.bin 5 2` has an
inverted range (`end_offset < start_offset`), yet `parse_args` accepts it
— it is not rejected before dispatch, with `InvalidJobSpecError` or
otherwise; parsing checks no relation between the two offsets. -/
theorem c7_counterexample :
    parseJobs ["int8", "f.bin", "5", "2"]
      = .ok [(.int8, [⟨"f.bin", 5, 2⟩])] := by decide

/-- Claim C7 as amended: an unknown element-type token or a non-numeric
offset makes `parse_args` panic before any dispatch or file open, but an
inverted range passes parsing unchecked: the job is dispatched, the file
is opened (`openEvents` lists it), and `load_chunk` then panics on the
`end_idx - start_idx` underflow. -/
theorem c7_reject_before_dispatch (tok : String) (rest : List String)
    (htok : ¬(tok = "int8" ∨ tok = "utf8"))
    (p b c : String) (hp : ¬(p = "int8" ∨ p = "utf8"))
    (hb : parseU64 b = none)
    (b2 c2 : String) (s eIdx : Nat)
    (hb2 : parseU64 b2 = some s) (hc2 : parseU64 c2 = some eIdx)
    (hinv : eIdx < s) (content : List Nat) (data_type : DataType) :
    parseJobs (tok :: rest) = .panicked
    ∧ parseJobs ["int8", p, b, c] = .panicked
    ∧ parseJobs ["int8", p, b2, c2] = .ok [(.int8, [⟨p, s, eIdx⟩])]
    ∧ openEvents [⟨p, s, eIdx⟩] = [p]
    ∧ load_chunk content ⟨p, s, eIdx⟩ data_type = .panicked := by
  refine ⟨?_, ?_, ?_, ?_, ?_⟩
  · simp only [parseJobs]
    rw [if_neg htok]
  · simp [parseJobs, parseGo, hp, hb]
  · simp [parseJobs, parseGo, dtOf, hp, hb2, hc2]
  · rfl
  · simp [load_chunk, hinv]

/-- Witness for the amended C7 at `bogus`, `int8 file.bin x 4`, and
`int8 file.bin 5 2`. -/
theorem c7_reject_before_dispatch_witness :
    parseJobs ["bogus"] = .panicked
    ∧ parseJobs ["int8", "file.bin", "x", "4"] = .panicked
    ∧ parseJobs ["int8", "file.bin", "5", "2"] = .ok [(.int8, [⟨"file.bin", 5, 2⟩])]
    ∧ openEvents [⟨"file.bin", 5, 2⟩] = ["file.bin"]
    ∧ load_chunk [1, 2, 255, 128] ⟨"file.bin", 5, 2⟩ .int8 = .panicked :=
  c7_reject_before_dispatch "bogus" [] (by decide) "file.bin" "x" "4" (by decide)
    (by decide) "5" "2" 5 2 (by decide) (by decide) (by decide) [1, 2, 255, 128] .int8

/-- Claim C8 counterexample: two chunks with different file paths and
different offset ranges both fail with the very same error value
(`read_exact`'s constant `UnexpectedEof`), so the reported error carries
neither the file path nor the requested offset range and cannot identify
the offending chunk. -/
theorem c8_counterexample :
    load_chunk [7] ⟨"a.bin", 0, 100⟩ .int8 = .err .unexpectedEof
    ∧ load_chunk [9, 9] ⟨"b.bin", 1, 50⟩ .utf8Str = .err .unexpectedEof
    ∧ (⟨"a.bin", 0, 100⟩ : ChunkInfo) ≠ ⟨"b.bin", 1, 50⟩ := by decide

/-- Claim C8 as amended: a short read fails with the constant
`UnexpectedEof` `io::Error` — identical for every chunk, carrying no file
path and no offset range — and invalid UTF-8 under `Utf8Str` fails with
an `InvalidData` error wrapping only the offending bytes, again without
path or range. -/
theorem c8_error_context (content content2 content3 : List Nat)
    (c c2 c3 : ChunkInfo) (data_type data_type2 : DataType)
    (hshort : c.start_idx < c.end_idx ∧ content.length < c.end_idx)
    (hshort2 : c2.start_idx < c2.end_idx ∧ content2.length < c2.end_idx)
    (buffer : List Nat) (hr3 : c3.start_idx ≤ c3.end_idx)
    (hv : readRange content3 c3.start_idx (c3.end_idx - c3.start_idx) = some buffer)
    (hbad : utf8Valid buffer = false) :
    load_chunk content c data_type = .err .unexpectedEof
    ∧ load_chunk content2 c2 data_type2 = .err .unexpectedEof
    ∧ load_chunk content3 c3 .utf8Str = .err (.invalidData buffer) := by
  refine ⟨?_, ?_, ?_⟩
  · have hlt : ¬ c.end_idx < c.start_idx := by omega
    have h0 : ¬ c.end_idx - c.start_idx = 0 := by omega
    have hgt : ¬ c.start_idx + (c.end_idx - c.start_idx) ≤ content.length := by omega
    simp only [load_chunk, readRange]
    rw [if_neg hlt, if_neg h0, if_neg hgt]
  · have hlt : ¬ c2.end_idx < c2.start_idx := by omega
    have h0 : ¬ c2.end_idx - c2.start_idx = 0 := by omega
    have hgt : ¬ c2.start_idx + (c2.end_idx - c2.start_idx) ≤ content2.length := by omega
    simp only [load_chunk, readRange]
    rw [if_neg hlt, if_neg h0, if_neg hgt]
  · have hlt : ¬ c3.end_idx < c3.start_idx := by omega
    simp only [load_chunk]
    rw [if_neg hlt, hv]
    simp [hbad]

/-- Witness for the amended C8: two distinct short-read chunks and one
invalid-UTF-8 chunk (a lone continuation byte). -/
theorem c8_error_context_witness :
    load_chunk [7] ⟨"a.bin", 0, 100⟩ .int8 = .err .unexpectedEof
    ∧ load_chunk [9, 9] ⟨"b.bin", 1, 50⟩ .utf8Str = .err .unexpectedEof
    ∧ load_chunk [255, 0] ⟨"c.bin", 0, 2⟩ .utf8Str = .err (.invalidData [255, 0]) :=
  c8_error_context [7] [9, 9] [255, 0] ⟨"a.bin", 0, 100⟩ ⟨"b.bin", 1, 50⟩
    ⟨"c.bin", 0, 2⟩ .int8 .utf8Str (by decide) (by decide) [255, 0] (by decide)
    (by decide) (by decide)

/-- Claim C9: the registry opens exactly one handle per distinct path —
the open sequence contains a path referenced by the job once, and a path
not referenced not at all — and any two chunks with the same path use the
same opened handle. -/
theorem c9_handle_reuse (chunks : List ChunkInfo) (p : String) :
    (openEvents chunks).count p
      = (if p ∈ chunks.map (fun c => c.filepath) then 1 else 0)
    ∧ ∀ c1 c2, c1 ∈ chunks → c2 ∈ chunks → c1.filepath = c2.filepath →
        handleFor chunks c1 = handleFor chunks c2 := by
  constructor
  · exact List.count_dedup _ _
  · intro c1 c2 _ _ heq
    unfold handleFor
    rw [heq]

/-- Witness for C9: a job naming `a.bin` three times and `b.bin` once
opens each exactly once, and the two `a.bin` chunks share a handle. -/
theorem c9_handle_reuse_witness :
    (openEvents [⟨"a.bin", 0, 1⟩, ⟨"a.bin", 1, 2⟩, ⟨"b.bin", 0, 4⟩, ⟨"a.bin", 2, 3⟩]).count "a.bin"
      = (if "a.bin" ∈ ([⟨"a.bin", 0, 1⟩, ⟨"a.bin", 1, 2⟩, ⟨"b.bin", 0, 4⟩, ⟨"a.bin", 2, 3⟩] :
          List ChunkInfo).map (fun c => c.filepath) then 1 else 0)
    ∧ handleFor [⟨"a.bin", 0, 1⟩, ⟨"a.bin", 1, 2⟩, ⟨"b.bin", 0, 4⟩, ⟨"a.bin", 2, 3⟩]
          ⟨"a.bin", 0, 1⟩
        = handleFor [⟨"a.bin", 0, 1⟩, ⟨"a.bin", 1, 2⟩, ⟨"b.bin", 0, 4⟩, ⟨"a.bin", 2, 3⟩]
          ⟨"a.bin", 2, 3⟩ :=
  ⟨(c9_handle_reuse [⟨"a.bin", 0, 1⟩, ⟨"a.bin", 1, 2⟩, ⟨"b.bin", 0, 4⟩, ⟨"a.bin", 2, 3⟩]
      "a.bin").1,
    (c9_handle_reuse [⟨"a.bin", 0, 1⟩, ⟨"a.bin", 1, 2⟩, ⟨"b.bin", 0, 4⟩, ⟨"a.bin", 2, 3⟩]
      "a.bin").2 ⟨"a.bin", 0, 1⟩ ⟨"a.bin", 2, 3⟩ (by decide) (by decide) rfl⟩

/-- Claim C10, the code's actual behaviour at the failing input: the two
`try_clone`d views of one open file share a single cursor (dup'd OS
handles share the file offset), so while the sequential schedule gives
each task its own bytes, the interleaved schedule `A.seek, B.seek,
A.read, B.read` makes task A read task B's byte range and task B hit
end-of-file: a concurrent reader's seek does disturb this reader's
position, contradicting the claim of independent cursors. -/
theorem c10_shared_cursor_race :
    (runTwoReads demoBytes chunkFirstHalf chunkSecondHalf [false, false, true, true]).bufA
        = some [10, 11, 12, 13]
    ∧ (runTwoReads demoBytes chunkFirstHalf chunkSecondHalf [false, false, true, true]).bufB
        = some [14, 15, 16, 17]
    ∧ (runTwoReads demoBytes chunkFirstHalf chunkSecondHalf [false, true, false, true]).bufA
        = some [14, 15, 16, 17]
    ∧ (runTwoReads demoBytes chunkFirstHalf chunkSecondHalf [false, true, false, true]).failed
        = true := by decide

end LoadData
